import Mathlib

/-!
Shallow embedding of the core logic of the expiration-tracker repository:
the status derivation (`src/src/lib/db.ts`, `convertToExpirationRecord`),
the record merge store (`expirationRecordsService.add` / `.update`), the
spreadsheet import/export (`src/src/lib/excel.ts`,
`src/src/lib/importExport.ts`) and barcode validation
(`src/src/lib/barcode.ts`).

Modelling conventions:
* JS timestamps are `Int` milliseconds; `Math.ceil` of an exact division by
  a positive constant is `-((-a) / b)` with Lean's floor division on `Int`.
* `Date.prototype.toDateString` equality (same local calendar day) is
  modelled as equality of `ms / 86400000` (floor), i.e. the calendar day at
  UTC offset zero.
* JS strings are Lean `String`; `String.prototype.trim` and the regex class
  `\s` both use the JS whitespace set, modelled by `isJsWhitespace`.
* Spreadsheet cells are strings; a missing cell (index out of range, or a
  column that was not found, index `-1` in JS) reads as `""`, matching the
  JS behaviour where `row[i]?.toString().trim()` yields `undefined` which
  is falsy and is replaced by `''` where the source appends it.
-/

namespace ExpTracker

/- ===================== JS string primitives ===================== -/

/-- The JS whitespace set: characters removed by `String.prototype.trim`
and matched by the regex class `\s` (WhiteSpace ∪ LineTerminator). -/
def isJsWhitespace (c : Char) : Bool :=
  c.toNat == 0x9 || c.toNat == 0xA || c.toNat == 0xB || c.toNat == 0xC ||
  c.toNat == 0xD || c.toNat == 0x20 || c.toNat == 0xA0 || c.toNat == 0x1680 ||
  (0x2000 ≤ c.toNat && c.toNat ≤ 0x200A) || c.toNat == 0x2028 || c.toNat == 0x2029 ||
  c.toNat == 0x202F || c.toNat == 0x205F || c.toNat == 0x3000 || c.toNat == 0xFEFF

/-- `String.prototype.trim` on the character list. -/
def jsTrimList (l : List Char) : List Char :=
  ((l.dropWhile isJsWhitespace).reverse.dropWhile isJsWhitespace).reverse

/-- `String.prototype.trim`. -/
def jsTrim (s : String) : String := ⟨jsTrimList s.data⟩

/-- `String.prototype.toLowerCase` (ASCII-faithful; the headers and inputs
relevant here are ASCII). -/
def jsToLower (s : String) : String := ⟨s.data.map Char.toLower⟩

/-- `needle` occurs as a contiguous substring of the haystack, as JS
`String.prototype.includes`. -/
def hasSub (needle : List Char) : List Char → Bool
  | [] => needle.isEmpty
  | c :: t => needle.isPrefixOf (c :: t) || hasSub needle t

/-- JS `a || b` on strings, where only `""` is falsy. -/
def jsOr (a b : String) : String := if a = "" then b else a

/- ===================== Status engine (db.ts) ===================== -/

/-- `1000 * 60 * 60 * 24` milliseconds, as in `convertToExpirationRecord`. -/
def msPerDay : Int := 1000 * 60 * 60 * 24

/-- `Math.ceil (a / b)` for integer `a` and positive integer `b`,
computed exactly. -/
def ceilDiv (a b : Int) : Int := -((-a) / b)

/-- The three display statuses of `convertToExpirationRecord`. -/
inductive Status
  | safe
  | nearExpiration
  | expired
deriving DecidableEq

/-- `Math.ceil((expirationDate.getTime() - today.getTime()) / (1000*60*60*24))`
from `convertToExpirationRecord` (db.ts lines 65-68 and 298-299). -/
def remainingDaysOf (expMs nowMs : Int) : Int :=
  ceilDiv (expMs - nowMs) msPerDay

/-- The tier rule of `convertToExpirationRecord` (db.ts lines 70-73):
`remainingDays < 0` expired, `≤ 7` near-expiration, otherwise safe. -/
def statusOf (remainingDays : Int) : Status :=
  if remainingDays < 0 then .expired
  else if remainingDays ≤ 7 then .nearExpiration
  else .safe

/-- The status a stored record displays at time `nowMs`. -/
def recordStatus (expMs nowMs : Int) : Status :=
  statusOf (remainingDaysOf expMs nowMs)

/- ============ Expiration records and the merge store (db.ts) ============ -/

/-- A stored expiration record (`DBExpirationRecord` with dates as
millisecond timestamps). -/
structure ExpRecord where
  id : String
  barcode : String
  itemName : String
  description : String
  quantity : Int
  expirationDate : Int
  notes : String
  dateCreated : Int
deriving DecidableEq

/-- The argument of `expirationRecordsService.add`:
`Omit<ExpirationRecord, 'id' | 'remainingDays' | 'status'>`. -/
structure Candidate where
  barcode : String
  itemName : String
  description : String
  quantity : Int
  expirationDate : Int
  notes : String
  dateCreated : Int
deriving DecidableEq

/-- The argument of `expirationRecordsService.update`:
`Partial<Omit<ExpirationRecord, 'id' | 'remainingDays' | 'status'>>`.
`none` = the property is absent from the partial object. -/
structure RecordUpdates where
  barcode : Option String := none
  itemName : Option String := none
  description : Option String := none
  quantity : Option Int := none
  expirationDate : Option Int := none
  notes : Option String := none
  dateCreated : Option Int := none
deriving DecidableEq

/-- `{ ...record, id }` in the create branch of `add`. -/
def mkRecord (id : String) (c : Candidate) : ExpRecord :=
  { id := id
    barcode := c.barcode
    itemName := c.itemName
    description := c.description
    quantity := c.quantity
    expirationDate := c.expirationDate
    notes := c.notes
    dateCreated := c.dateCreated }

/-- Dexie `Table.update(id, changes)` merged into one stored object:
each provided property overwrites, each absent property is retained. -/
def applyUpdates (u : RecordUpdates) (r : ExpRecord) : ExpRecord :=
  { id := r.id
    barcode := u.barcode.getD r.barcode
    itemName := u.itemName.getD r.itemName
    description := u.description.getD r.description
    quantity := u.quantity.getD r.quantity
    expirationDate := u.expirationDate.getD r.expirationDate
    notes := u.notes.getD r.notes
    dateCreated := u.dateCreated.getD r.dateCreated }

/-- `expirationRecordsService.update(id, updates)` (db.ts lines 139-157):
builds the partial object and hands it to Dexie `Table.update`, which
rewrites the record whose primary key is `id` and, when no record has that
key, resolves without error leaving the table unchanged (it reports the
number of updated rows, which is then ignored by the service). -/
def serviceUpdate (id : String) (u : RecordUpdates)
    (s : List ExpRecord) : List ExpRecord :=
  s.map (fun r => if r.id = id then applyUpdates u r else r)

/-- The local calendar day of a timestamp, the equivalence induced by
`Date.prototype.toDateString` (at UTC offset zero). -/
def dayOf (ms : Int) : Int := ms / msPerDay

/-- The match test of `add` (db.ts lines 118-123): same `itemName` and
same expiration calendar day. -/
def isMatch (c : Candidate) (r : ExpRecord) : Bool :=
  r.itemName == c.itemName && dayOf r.expirationDate == dayOf c.expirationDate

/-- `getAll()` sorts by `expirationDate` (ISO strings, hence
chronologically) before `add` scans for a match. -/
def sortByExp (s : List ExpRecord) : List ExpRecord :=
  s.insertionSort (fun a b => a.expirationDate ≤ b.expirationDate)

/-- The record ids present in a store. -/
def ids (s : List ExpRecord) : List String := s.map (·.id)

/-- `expirationRecordsService.add(record)` (db.ts lines 113-137).
`freshId` stands for the `crypto.randomUUID()` draw of the create branch.
Returns the new store together with the returned value: `some id` from the
create branch (`return id`), `none` from the merge branch (`return;`,
i.e. `undefined`). -/
def add (freshId : String) (s : List ExpRecord) (c : Candidate) :
    List ExpRecord × Option String :=
  match (sortByExp s).find? (fun r => isMatch c r) with
  | some m =>
      (serviceUpdate m.id { quantity := some (m.quantity + c.quantity) } s,
       none)
  | none => (s ++ [mkRecord freshId c], some freshId)

/- ============ Spreadsheet import (excel.ts) ============ -/

/-- A catalog entry produced by the product-data import. -/
structure Product where
  barcode : String
  itemName : String
  description : String
deriving DecidableEq

/-- The result shape `ExcelImportResult`. -/
structure ImportResult where
  success : Bool
  imported : Nat
  errors : List String
  data : List Product
deriving DecidableEq

/-- `headers.findIndex(p)` — the index of the first element satisfying the
predicate, `none` standing for JS `-1`. -/
def findHeaderIndex (p : String → Bool) : List String → Option Nat
  | [] => none
  | h :: t => if p h then some 0 else (findHeaderIndex p t).map (· + 1)

/-- Substring test on strings, JS `h.includes(syn)`. -/
def strContains (h syn : String) : Bool := hasSub syn.data h.data

/-- The barcode-column synonym test of excel.ts line 28. -/
def isBarcodeHeader (h : String) : Bool :=
  strContains h "barcode" || strContains h "upc" ||
  strContains h "ean" || strContains h "code"

/-- The item-name-column synonym test of excel.ts line 32. -/
def isItemNameHeader (h : String) : Bool :=
  strContains h "item" || strContains h "name" ||
  strContains h "product" || strContains h "title"

/-- The description-column synonym test of excel.ts line 36. -/
def isDescHeader (h : String) : Bool :=
  strContains h "description" || strContains h "desc" ||
  strContains h "detail"

/-- `row[i]?.toString()` with `i` a found column index (`none` = the column
was not found, JS index `-1`): a missing cell reads as `""` (JS
`undefined`, which the source treats as falsy / replaces by `''`). -/
def cellAt (row : List String) : Option Nat → String
  | none => ""
  | some j => (row.get? j).getD ""

/-- The row-level error message of excel.ts line 71, for `jsonData` index
`i` (0-based including the header row): `Row ${i + 1}: ...`. -/
def rowMsg (i : Nat) : String :=
  "Row " ++ toString (i + 1) ++ ": Missing barcode or item name"

/-- The rejection test of excel.ts line 70: `!barcode || !itemName` on the
trimmed cells of the row. -/
def rowBad (b n : Nat) (row : List String) : Bool :=
  jsTrim (cellAt row (some b)) == "" || jsTrim (cellAt row (some n)) == ""

/-- The accepted product of a good row (excel.ts lines 75-79). -/
def rowProduct (b n : Nat) (d : Option Nat) (row : List String) : Product :=
  ⟨jsTrim (cellAt row (some b)), jsTrim (cellAt row (some n)),
   jsTrim (cellAt row d)⟩

/-- The data-row loop of `importProductDataFromExcel` (excel.ts lines
61-80): `i` is the `jsonData` index of the first row of `rows`. Returns
the accepted products and the row-level errors, each in row order. -/
def processRows (b n : Nat) (d : Option Nat) :
    List (List String) → Nat → List Product × List String
  | [], _ => ([], [])
  | row :: rest, i =>
    let tail := processRows b n d rest (i + 1)
    if row.isEmpty then tail
    else if rowBad b n row then
      (tail.1, rowMsg i :: tail.2)
    else
      (rowProduct b n d row :: tail.1, tail.2)

/-- `importProductDataFromExcel` (excel.ts lines 7-96) on the decoded
table (`sheet_to_json` with `header: 1`): header-row scan, required-column
checks, then the data-row loop. Note that the final result reports
`success: true` regardless of the row-level `errors` list. -/
def importProductData : List (List String) → ImportResult
  | [] =>
    ⟨false, 0, ["File must contain at least a header row and one data row"], []⟩
  | [_] =>
    ⟨false, 0, ["File must contain at least a header row and one data row"], []⟩
  | hdr :: rows =>
    let headers := hdr.map (fun h => jsTrim (jsToLower h))
    match findHeaderIndex isBarcodeHeader headers,
          findHeaderIndex isItemNameHeader headers with
    | none, _ =>
      ⟨false, 0,
       ["Barcode column not found. Expected column names: Barcode, UPC, EAN, or Code"],
       []⟩
    | some _, none =>
      ⟨false, 0,
       ["Item name column not found. Expected column names: Item Name, Name, Product, or Title"],
       []⟩
    | some b, some n =>
      let d := findHeaderIndex isDescHeader headers
      let res := processRows b n d rows 1
      ⟨true, res.1.length, res.2, res.1⟩

/- ============ Spreadsheet import (importExport.ts variant) ============ -/

/-- A decoded object row of `sheet_to_json` (no `header: 1`): cells keyed
by the header text of their column. Absent keys read as `""`. -/
def getField (row : List (String × String)) (k : String) : String :=
  ((row.find? (fun p => p.1 == k)).map (fun p => p.2)).getD ""

/-- The body of the `rows.forEach` of the importExport.ts
`importProductDataFromExcel` (lines 140-155), at `rows` index `index`. -/
def processObjRows :
    List (List (String × String)) → Nat → List Product × List String
  | [], _ => ([], [])
  | row :: rest, index =>
    let tail := processObjRows rest (index + 1)
    let barcode :=
      jsTrim (jsOr (jsOr (getField row "Barcode") (getField row "barcode"))
        (getField row "UPC"))
    let itemName := jsTrim (jsOr (getField row "Item Name") (getField row "itemName"))
    let description := jsTrim (getField row "Description")
    if barcode = "" || itemName = "" then
      (tail.1,
       ("Row " ++ toString (index + 2) ++ ": Missing barcode or item name") :: tail.2)
    else
      (⟨barcode, itemName, description⟩ :: tail.1, tail.2)

/-- `importProductDataFromExcel` of importExport.ts (lines 128-170): same
row screening, but the outcome reports `success: errors.length === 0`. -/
def importProductDataIE (rows : List (List (String × String))) : ImportResult :=
  let res := processObjRows rows 0
  ⟨res.2.isEmpty, res.1.length, res.2, res.1⟩

/- ============ Spreadsheet export (importExport.ts) ============ -/

/-- `status.replace('-', ' ')` applied to the three status labels. -/
def statusDisplay : Status → String
  | .safe => "safe"
  | .nearExpiration => "near expiration"
  | .expired => "expired"

/-- The fixed header row written by `exportExpirationRecordsToExcel` with
all columns selected (the default). -/
def exportHeader : List String :=
  ["Barcode", "Item Name", "Description", "Quantity", "Expiration Date",
   "Remaining Days", "Status", "Notes", "Date Created"]

/-- One exported row (importExport.ts lines 96-113), with every column
selected. `fmtDate` stands for the locale rendering
`Date.prototype.toLocaleDateString`; `nowMs` is the read time at which the
derived `remainingDays` and `status` fields were computed. -/
def exportRow (fmtDate : Int → String) (nowMs : Int) (r : ExpRecord) :
    List String :=
  [r.barcode, r.itemName, r.description, toString r.quantity,
   fmtDate r.expirationDate,
   toString (remainingDaysOf r.expirationDate nowMs),
   statusDisplay (recordStatus r.expirationDate nowMs),
   r.notes, fmtDate r.dateCreated]

/-- The full table written by `exportExpirationRecordsToExcel` (all columns
selected), as it is then decoded by `sheet_to_json` with `header: 1`. -/
def exportTable (fmtDate : Int → String) (nowMs : Int)
    (records : List ExpRecord) : List (List String) :=
  exportHeader :: records.map (exportRow fmtDate nowMs)

/- ============ Barcode validation (barcode.ts) ============ -/

/-- `[0-9]` in the barcode regexes. -/
def isDigitChar (c : Char) : Bool := 0x30 ≤ c.toNat && c.toNat ≤ 0x39

/-- `BARCODE_PATTERNS.UPC_A`: `/^\d{12}$/`. -/
def upcA (l : List Char) : Bool := l.length == 12 && l.all isDigitChar

/-- `BARCODE_PATTERNS.UPC_E`: `/^\d{8}$/` (identical to `EAN_8`). -/
def upcE (l : List Char) : Bool := l.length == 8 && l.all isDigitChar

/-- `BARCODE_PATTERNS.EAN_13`: `/^\d{13}$/`. -/
def ean13 (l : List Char) : Bool := l.length == 13 && l.all isDigitChar

/-- `BARCODE_PATTERNS.EAN_8`: `/^\d{8}$/`. -/
def ean8 (l : List Char) : Bool := l.length == 8 && l.all isDigitChar

/-- `BARCODE_PATTERNS.CODE_128`: `/^[\x00-\x7F]+$/` — one or more ASCII
characters. -/
def code128 (l : List Char) : Bool := !l.isEmpty && l.all (fun c => c.toNat ≤ 0x7F)

/-- The character class of `BARCODE_PATTERNS.CODE_39`:
`[A-Z0-9\-\.\$\/\+\%\s]`. -/
def isCode39Char (c : Char) : Bool :=
  (0x41 ≤ c.toNat && c.toNat ≤ 0x5A) || isDigitChar c ||
  c == '-' || c == '.' || c == '$' || c == '/' || c == '+' || c == '%' ||
  isJsWhitespace c

/-- `BARCODE_PATTERNS.CODE_39`: `/^[A-Z0-9\-\.\$\/\+\%\s]+$/`. -/
def code39 (l : List Char) : Bool := !l.isEmpty && l.all isCode39Char

/-- The return shape of `validateBarcode`:
`{ valid: boolean; type?: string; error?: string }` (`type` is a Lean
keyword, rendered `btype`). -/
structure ValidationResult where
  valid : Bool
  btype : Option String := none
  error : Option String := none
deriving DecidableEq

/-- `validateBarcode` (barcode.ts lines 17-40): reject empty/whitespace-only
input, then try the six patterns in declaration order, then accept any
4-50 character input as `CUSTOM`, otherwise reject. String length is
modelled as the character count (JS counts UTF-16 units; the two agree on
every character below `0x10000`). -/
def validateBarcode (barcode : String) : ValidationResult :=
  if barcode = "" || jsTrim barcode = "" then
    ⟨false, none, some "Barcode cannot be empty"⟩
  else
    let clean := (jsTrim barcode).data
    if upcA clean then ⟨true, some "UPC_A", none⟩
    else if upcE clean then ⟨true, some "UPC_E", none⟩
    else if ean13 clean then ⟨true, some "EAN_13", none⟩
    else if ean8 clean then ⟨true, some "EAN_8", none⟩
    else if code128 clean then ⟨true, some "CODE_128", none⟩
    else if code39 clean then ⟨true, some "CODE_39", none⟩
    else if 4 ≤ clean.length && clean.length ≤ 50 then
      ⟨true, some "CUSTOM", none⟩
    else
      ⟨false, none,
       some "Invalid barcode format. Must be 4-50 characters and contain valid characters."⟩

/-- Every character is ASCII (code point at most `0x7F`). -/
def allAscii (s : String) : Bool := s.data.all (fun c => c.toNat ≤ 0x7F)

/- ============ Indexing helper for row-level statements ============ -/

/-- Pair each element with its position, starting from `i`. -/
def enumFromIdx {α : Type} (i : Nat) : List α → List (Nat × α)
  | [] => []
  | a :: t => (i, a) :: enumFromIdx (i + 1) t

/-- The lowercased, trimmed header row, as computed on excel.ts line 25. -/
def loweredHeaders (hdr : List String) : List String :=
  hdr.map (fun h => jsTrim (jsToLower h))

/- ===================================================================
   Theorems
=================================================================== -/

/-- `remainingDays` of a record whose expiration timestamp sits on the
day boundary `d` equals `d - t` whenever now lies inside calendar day
`t`. -/
theorem remainingDaysOf_day (d t nowMs : Int)
    (h1 : t * msPerDay ≤ nowMs) (h2 : nowMs < (t + 1) * msPerDay) :
    remainingDaysOf (d * msPerDay) nowMs = d - t := by
  unfold remainingDaysOf ceilDiv msPerDay at *
  omega

/-- C1: the day-tier policy: `remainingDays < 0` yields expired,
`0 ≤ remainingDays ≤ 7` near-expiration, `> 7` safe; consequently, for a
record expiring on calendar day `d`, read at any instant of calendar day
`t`, the status is expired iff `d < t`, and the boundary days `t + 7` and
`t + 8` yield near-expiration and safe respectively. -/
theorem statusEngine_day_tier (rd d t nowMs : Int)
    (h1 : t * msPerDay ≤ nowMs) (h2 : nowMs < (t + 1) * msPerDay) :
    (rd < 0 → statusOf rd = .expired) ∧
    (0 ≤ rd → rd ≤ 7 → statusOf rd = .nearExpiration) ∧
    (7 < rd → statusOf rd = .safe) ∧
    (recordStatus (d * msPerDay) nowMs = .expired ↔ d < t) ∧
    recordStatus ((t + 7) * msPerDay) nowMs = .nearExpiration ∧
    recordStatus ((t + 8) * msPerDay) nowMs = .safe := by
  have hr : ∀ e : Int, recordStatus (e * msPerDay) nowMs = statusOf (e - t) :=
    fun e => by rw [recordStatus, remainingDaysOf_day e t nowMs h1 h2]
  have tier1 : ∀ x : Int, x < 0 → statusOf x = .expired := fun x h => by
    unfold statusOf; rw [if_pos h]
  have tier2 : ∀ x : Int, 0 ≤ x → x ≤ 7 → statusOf x = .nearExpiration :=
    fun x h0 h7 => by unfold statusOf; rw [if_neg (by omega), if_pos h7]
  have tier3 : ∀ x : Int, 7 < x → statusOf x = .safe := fun x h => by
    unfold statusOf; rw [if_neg (by omega), if_neg (by omega)]
  refine ⟨tier1 rd, tier2 rd, tier3 rd, ?_, ?_, ?_⟩
  · rw [hr d]
    constructor
    · intro h
      by_contra hlt
      push_neg at hlt
      rcases le_or_lt (d - t) 7 with c | c
      · rw [tier2 (d - t) (by omega) c] at h
        exact absurd h (by decide)
      · rw [tier3 (d - t) c] at h
        exact absurd h (by decide)
    · intro h
      exact tier1 (d - t) (by omega)
  · rw [hr (t + 7), show t + 7 - t = 7 by ring]
    exact tier2 7 (by decide) (by decide)
  · rw [hr (t + 8), show t + 8 - t = 8 by ring]
    exact tier3 8 (by decide)

/-- Witness for `statusEngine_day_tier` at a concrete instant. -/
theorem statusEngine_day_tier_witness :
    (0 * msPerDay ≤ 3600000 ∧ 3600000 < (0 + 1) * msPerDay) ∧
    (recordStatus ((-1) * msPerDay) 3600000 = .expired ↔ (-1 : Int) < 0) ∧
    recordStatus ((0 + 7) * msPerDay) 3600000 = .nearExpiration ∧
    recordStatus ((0 + 8) * msPerDay) 3600000 = .safe :=
  ⟨⟨by decide, by decide⟩,
   (statusEngine_day_tier 3 (-1) 0 3600000 (by decide) (by decide)).2.2.2⟩

/- ---------- merge-store helper lemmas ---------- -/

/-- Membership is invariant under the `getAll` ordering. -/
theorem mem_sortByExp (r : ExpRecord) (s : List ExpRecord) :
    r ∈ sortByExp s ↔ r ∈ s :=
  (List.perm_insertionSort _ s).mem_iff

/-- A successful match scan yields a matching record of the store. -/
theorem find_match_some (s : List ExpRecord) (c : Candidate) (m : ExpRecord)
    (h : (sortByExp s).find? (fun r => isMatch c r) = some m) :
    m ∈ s ∧ isMatch c m = true :=
  ⟨(mem_sortByExp m s).1 (List.mem_of_find?_eq_some h), List.find?_some h⟩

/-- The match scan fails exactly when no record of the store matches. -/
theorem find_match_none (s : List ExpRecord) (c : Candidate) :
    (sortByExp s).find? (fun r => isMatch c r) = none ↔
      ∀ r ∈ s, isMatch c r = false := by
  rw [List.find?_eq_none]
  constructor
  · intro h r hr
    have := h r ((mem_sortByExp r s).2 hr)
    simpa using this
  · intro h r hr
    have := h r ((mem_sortByExp r s).1 hr)
    simp [this]

/-- In a store whose ids are distinct, records are determined by their id. -/
theorem eq_of_mem_of_ids_nodup (s : List ExpRecord)
    (hN : (ids s).Nodup) :
    ∀ x ∈ s, ∀ y ∈ s, x.id = y.id → x = y := by
  induction s with
  | nil => intro x hx; cases hx
  | cons a t ih =>
    simp only [ids, List.map_cons, List.nodup_cons] at hN
    obtain ⟨ha, ht⟩ := hN
    intro x hx y hy hxy
    rcases List.mem_cons.1 hx with rfl | hx' <;>
      rcases List.mem_cons.1 hy with rfl | hy'
    · rfl
    · exact absurd (by rw [hxy]; exact List.mem_map_of_mem (·.id) hy') ha
    · exact absurd (by rw [← hxy]; exact List.mem_map_of_mem (·.id) hx') ha
    · exact ih ht x hx' y hy' hxy

/-- C2: `add` either merges or creates, never both: when some stored record
has the candidate's item name and expiration day, `add` leaves the record
count unchanged, rewriting a matching record via a quantity-only update;
otherwise it appends one new record carrying the fresh id (which stays
unique); two adds with identical match key and quantities 2 and 3 leave
one record of quantity 5, and two adds with the same barcode but different
expiration days leave two distinct records. -/
theorem add_merges_or_creates (s : List ExpRecord) (c : Candidate)
    (freshId : String) (hfresh : freshId ∉ ids s) :
    ((∃ r ∈ s, isMatch c r = true) →
      (add freshId s c).1.length = s.length ∧
      ∃ m ∈ s, isMatch c m = true ∧
        (add freshId s c).1 =
          serviceUpdate m.id { quantity := some (m.quantity + c.quantity) } s) ∧
    ((∀ r ∈ s, isMatch c r = false) →
      (add freshId s c).1 = s ++ [mkRecord freshId c] ∧
      freshId ∈ ids (add freshId s c).1 ∧
      ((ids s).Nodup → (ids (add freshId s c).1).Nodup)) ∧
    ((add "id2" (add "id1" []
        (⟨"b1", "Milk", "", 2, 100, "", 0⟩ : Candidate)).1
        (⟨"b1", "Milk", "", 3, 100, "", 0⟩ : Candidate)).1 =
      [⟨"id1", "b1", "Milk", "", 5, 100, "", 0⟩]) ∧
    ((add "id2" (add "id1" []
        (⟨"b1", "Milk", "", 1, 0, "", 0⟩ : Candidate)).1
        (⟨"b1", "Milk", "", 1, 86400000, "", 0⟩ : Candidate)).1 =
      [⟨"id1", "b1", "Milk", "", 1, 0, "", 0⟩,
       ⟨"id2", "b1", "Milk", "", 1, 86400000, "", 0⟩]) := by
  refine ⟨?_, ?_, by decide, by decide⟩
  · rintro ⟨r, hr, hm⟩
    rcases hfind : (sortByExp s).find? (fun r => isMatch c r) with _ | m
    · rw [find_match_none s c] at hfind
      rw [hfind r hr] at hm
      cases hm
    · obtain ⟨hmem, hmatch⟩ := find_match_some s c m hfind
      refine ⟨?_, m, hmem, hmatch, ?_⟩
      · simp [add, hfind, serviceUpdate]
      · simp [add, hfind]
  · intro hnone
    have hfind : (sortByExp s).find? (fun r => isMatch c r) = none :=
      (find_match_none s c).2 hnone
    refine ⟨by simp [add, hfind], ?_, ?_⟩
    · simp [add, hfind, ids, mkRecord]
    · intro hN
      simp only [add, hfind, ids, List.map_append, List.map_cons, List.map_nil]
      rw [List.nodup_append]
      exact ⟨hN, List.nodup_singleton _,
        by simpa [ids, List.disjoint_singleton] using hfresh⟩

/-- Witness for `add_merges_or_creates`: a concrete merging add. -/
theorem add_merges_or_creates_witness :
    ("id9" ∉ ids [⟨"id1", "b1", "Milk", "", 2, 100, "", 0⟩]) ∧
    ((∃ r ∈ [(⟨"id1", "b1", "Milk", "", 2, 100, "", 0⟩ : ExpRecord)],
        isMatch ⟨"b1", "Milk", "", 3, 100, "", 0⟩ r = true) →
      (add "id9" [⟨"id1", "b1", "Milk", "", 2, 100, "", 0⟩]
        ⟨"b1", "Milk", "", 3, 100, "", 0⟩).1.length =
        [(⟨"id1", "b1", "Milk", "", 2, 100, "", 0⟩ : ExpRecord)].length ∧
      ∃ m ∈ [(⟨"id1", "b1", "Milk", "", 2, 100, "", 0⟩ : ExpRecord)],
        isMatch ⟨"b1", "Milk", "", 3, 100, "", 0⟩ m = true ∧
        (add "id9" [⟨"id1", "b1", "Milk", "", 2, 100, "", 0⟩]
          ⟨"b1", "Milk", "", 3, 100, "", 0⟩).1 =
          serviceUpdate m.id { quantity := some (m.quantity + 3) }
            [⟨"id1", "b1", "Milk", "", 2, 100, "", 0⟩]) :=
  ⟨by decide,
   (add_merges_or_creates [⟨"id1", "b1", "Milk", "", 2, 100, "", 0⟩]
      ⟨"b1", "Milk", "", 3, 100, "", 0⟩ "id9" (by decide)).1⟩

/-- C3 counterexample: on a store holding the matching record `id "r0"`,
a merging `add` returns `undefined` (`return;`), not the matched record's
id, although the merge did take place. -/
theorem add_merge_return_cex :
    (∃ r ∈ [(⟨"r0", "b", "Milk", "", 1, 100, "", 0⟩ : ExpRecord)],
      isMatch ⟨"b", "Milk", "", 2, 100, "", 0⟩ r = true) ∧
    (add "fresh" [⟨"r0", "b", "Milk", "", 1, 100, "", 0⟩]
      ⟨"b", "Milk", "", 2, 100, "", 0⟩).2 = none ∧
    (add "fresh" [⟨"r0", "b", "Milk", "", 1, 100, "", 0⟩]
      ⟨"b", "Milk", "", 2, 100, "", 0⟩).2 ≠ some "r0" ∧
    (add "fresh" [⟨"r0", "b", "Milk", "", 1, 100, "", 0⟩]
      ⟨"b", "Milk", "", 2, 100, "", 0⟩).1 =
      [⟨"r0", "b", "Milk", "", 3, 100, "", 0⟩] := by
  decide

/-- C3 amended: `add` returns the freshly generated id when it creates a
new record, and returns nothing (`undefined`) when it merges the candidate
into an existing record. -/
theorem add_return_value (s : List ExpRecord) (c : Candidate)
    (freshId : String) :
    ((∀ r ∈ s, isMatch c r = false) → (add freshId s c).2 = some freshId) ∧
    ((∃ r ∈ s, isMatch c r = true) → (add freshId s c).2 = none) := by
  constructor
  · intro hnone
    have hfind := (find_match_none s c).2 hnone
    simp [add, hfind]
  · rintro ⟨r, hr, hm⟩
    rcases hfind : (sortByExp s).find? (fun r => isMatch c r) with _ | m
    · rw [find_match_none s c] at hfind
      rw [hfind r hr] at hm
      cases hm
    · simp [add, hfind]

/-- Witness for `add_return_value`: one creating add, one merging add. -/
theorem add_return_value_witness :
    ((∀ r ∈ ([] : List ExpRecord),
        isMatch ⟨"b", "Milk", "", 2, 100, "", 0⟩ r = false) →
      (add "f1" [] ⟨"b", "Milk", "", 2, 100, "", 0⟩).2 = some "f1") ∧
    ((∃ r ∈ ([] : List ExpRecord),
        isMatch ⟨"b", "Milk", "", 2, 100, "", 0⟩ r = true) →
      (add "f1" [] ⟨"b", "Milk", "", 2, 100, "", 0⟩).2 = none) :=
  add_return_value [] ⟨"b", "Milk", "", 2, 100, "", 0⟩ "f1"

/-- C4: a merging `add` rewrites only the quantity of the matched record
(adding the candidate's quantity) and leaves its other fields, and every
other record of the store, unchanged. -/
theorem add_merge_frame (s : List ExpRecord) (c : Candidate)
    (freshId : String) (m : ExpRecord) (hN : (ids s).Nodup)
    (hfind : (sortByExp s).find? (fun r => isMatch c r) = some m) :
    m ∈ s ∧ isMatch c m = true ∧
    (add freshId s c).1 =
      s.map (fun r =>
        if r.id = m.id then { r with quantity := r.quantity + c.quantity }
        else r) ∧
    (∀ r ∈ s, r.id ≠ m.id → r ∈ (add freshId s c).1) ∧
    (add freshId s c).1.length = s.length := by
  obtain ⟨hmem, hmatch⟩ := find_match_some s c m hfind
  have hstore : (add freshId s c).1 =
      s.map (fun r =>
        if r.id = m.id then { r with quantity := r.quantity + c.quantity }
        else r) := by
    simp only [add, hfind, serviceUpdate]
    refine List.map_congr_left (fun r hr => ?_)
    by_cases h : r.id = m.id
    · have : r = m := eq_of_mem_of_ids_nodup s hN r hr m hmem h
      subst this
      simp [h, applyUpdates]
    · simp [h]
  refine ⟨hmem, hmatch, hstore, ?_, ?_⟩
  · intro r hr hne
    rw [hstore]
    have : (if r.id = m.id then
        { r with quantity := r.quantity + c.quantity } else r) = r :=
      if_neg hne
    exact this ▸ List.mem_map_of_mem _ hr
  · rw [hstore, List.length_map]

/-- Witness for `add_merge_frame` on a two-record store. -/
theorem add_merge_frame_witness :
    ((ids [(⟨"r0", "b", "Milk", "", 1, 100, "", 0⟩ : ExpRecord),
           ⟨"r1", "b", "Jam", "", 4, 100, "", 0⟩]).Nodup ∧
     (sortByExp [⟨"r0", "b", "Milk", "", 1, 100, "", 0⟩,
           ⟨"r1", "b", "Jam", "", 4, 100, "", 0⟩]).find?
        (fun r => isMatch ⟨"b", "Milk", "", 2, 100, "", 0⟩ r) =
        some ⟨"r0", "b", "Milk", "", 1, 100, "", 0⟩) ∧
    ((⟨"r0", "b", "Milk", "", 1, 100, "", 0⟩ : ExpRecord) ∈
        [(⟨"r0", "b", "Milk", "", 1, 100, "", 0⟩ : ExpRecord),
         ⟨"r1", "b", "Jam", "", 4, 100, "", 0⟩] ∧
     isMatch ⟨"b", "Milk", "", 2, 100, "", 0⟩
        ⟨"r0", "b", "Milk", "", 1, 100, "", 0⟩ = true ∧
     (add "f" [⟨"r0", "b", "Milk", "", 1, 100, "", 0⟩,
         ⟨"r1", "b", "Jam", "", 4, 100, "", 0⟩]
         ⟨"b", "Milk", "", 2, 100, "", 0⟩).1 =
       [(⟨"r0", "b", "Milk", "", 1, 100, "", 0⟩ : ExpRecord),
        ⟨"r1", "b", "Jam", "", 4, 100, "", 0⟩].map (fun r =>
          if r.id = (⟨"r0", "b", "Milk", "", 1, 100, "", 0⟩ : ExpRecord).id
          then { r with quantity := r.quantity + 2 } else r) ∧
     (∀ r ∈ [(⟨"r0", "b", "Milk", "", 1, 100, "", 0⟩ : ExpRecord),
         ⟨"r1", "b", "Jam", "", 4, 100, "", 0⟩],
       r.id ≠ (⟨"r0", "b", "Milk", "", 1, 100, "", 0⟩ : ExpRecord).id →
       r ∈ (add "f" [⟨"r0", "b", "Milk", "", 1, 100, "", 0⟩,
         ⟨"r1", "b", "Jam", "", 4, 100, "", 0⟩]
         ⟨"b", "Milk", "", 2, 100, "", 0⟩).1) ∧
     (add "f" [⟨"r0", "b", "Milk", "", 1, 100, "", 0⟩,
         ⟨"r1", "b", "Jam", "", 4, 100, "", 0⟩]
         ⟨"b", "Milk", "", 2, 100, "", 0⟩).1.length =
       [(⟨"r0", "b", "Milk", "", 1, 100, "", 0⟩ : ExpRecord),
        ⟨"r1", "b", "Jam", "", 4, 100, "", 0⟩].length) :=
  ⟨⟨by decide, by decide⟩,
   add_merge_frame [⟨"r0", "b", "Milk", "", 1, 100, "", 0⟩,
       ⟨"r1", "b", "Jam", "", 4, 100, "", 0⟩]
     ⟨"b", "Milk", "", 2, 100, "", 0⟩ "f"
     ⟨"r0", "b", "Milk", "", 1, 100, "", 0⟩ (by decide) (by decide)⟩

/-- C5 counterexample: `update` on an id absent from the store resolves
without any error, leaving the store unchanged — it does not fail with
`NotFoundError` (no such error exists anywhere in the code; Dexie's
`Table.update` resolves with an update count of 0). -/
theorem update_missing_id_cex :
    ("absent" ∉ ids [(⟨"r0", "b", "Milk", "", 1, 100, "", 0⟩ : ExpRecord)]) ∧
    serviceUpdate "absent" { quantity := some 9 }
        [⟨"r0", "b", "Milk", "", 1, 100, "", 0⟩] =
      [⟨"r0", "b", "Milk", "", 1, 100, "", 0⟩] := by
  decide

/-- C5 amended: `update(id, partialFields)` merges the provided fields
into the record carrying `id`, leaving every unspecified field at its
prior value; when no record with that id exists, it is a silent no-op (the
store is unchanged and no error is raised). -/
theorem update_merges_fields (id : String) (u : RecordUpdates)
    (s : List ExpRecord) :
    (id ∉ ids s → serviceUpdate id u s = s) ∧
    (serviceUpdate id u s).length = s.length ∧
    (∀ r ∈ s, r.id ≠ id → r ∈ serviceUpdate id u s) ∧
    (∀ r ∈ s, r.id = id →
      ∃ r' ∈ serviceUpdate id u s, r'.id = r.id ∧
        (u.barcode = none → r'.barcode = r.barcode) ∧
        (∀ v, u.barcode = some v → r'.barcode = v) ∧
        (u.itemName = none → r'.itemName = r.itemName) ∧
        (∀ v, u.itemName = some v → r'.itemName = v) ∧
        (u.description = none → r'.description = r.description) ∧
        (∀ v, u.description = some v → r'.description = v) ∧
        (u.quantity = none → r'.quantity = r.quantity) ∧
        (∀ v, u.quantity = some v → r'.quantity = v) ∧
        (u.expirationDate = none → r'.expirationDate = r.expirationDate) ∧
        (∀ v, u.expirationDate = some v → r'.expirationDate = v) ∧
        (u.notes = none → r'.notes = r.notes) ∧
        (∀ v, u.notes = some v → r'.notes = v) ∧
        (u.dateCreated = none → r'.dateCreated = r.dateCreated) ∧
        (∀ v, u.dateCreated = some v → r'.dateCreated = v)) := by
  refine ⟨?_, List.length_map s _, ?_, ?_⟩
  · intro hid
    have hmap : ∀ r ∈ s, (if r.id = id then applyUpdates u r else r) = r := by
      intro r hr
      have hne : r.id ≠ id := by
        intro h
        exact hid (h ▸ List.mem_map_of_mem (·.id) hr)
      rw [if_neg hne]
    rw [serviceUpdate, List.map_congr_left hmap, List.map_id']
  · intro r hr hne
    have : (if r.id = id then applyUpdates u r else r) = r := if_neg hne
    exact this ▸ List.mem_map_of_mem _ hr
  · intro r hr hid
    refine ⟨applyUpdates u r, ?_, rfl, ?_⟩
    · have : (if r.id = id then applyUpdates u r else r) = applyUpdates u r :=
        if_pos hid
      exact this ▸ List.mem_map_of_mem _ hr
    · refine ⟨fun h => by simp [applyUpdates, h],
        fun v h => by simp [applyUpdates, h], ?_⟩
      refine ⟨fun h => by simp [applyUpdates, h],
        fun v h => by simp [applyUpdates, h], ?_⟩
      refine ⟨fun h => by simp [applyUpdates, h],
        fun v h => by simp [applyUpdates, h], ?_⟩
      refine ⟨fun h => by simp [applyUpdates, h],
        fun v h => by simp [applyUpdates, h], ?_⟩
      refine ⟨fun h => by simp [applyUpdates, h],
        fun v h => by simp [applyUpdates, h], ?_⟩
      refine ⟨fun h => by simp [applyUpdates, h],
        fun v h => by simp [applyUpdates, h], ?_⟩
      exact ⟨fun h => by simp [applyUpdates, h],
        fun v h => by simp [applyUpdates, h]⟩

/-- Witness for `update_merges_fields`: a no-op update on a store without
the id, applied at a concrete input. -/
theorem update_merges_fields_witness :
    ("zz" ∉ ids [(⟨"r0", "b", "Milk", "", 1, 100, "", 0⟩ : ExpRecord)]) ∧
    serviceUpdate "zz" { notes := some "n" }
        [⟨"r0", "b", "Milk", "", 1, 100, "", 0⟩] =
      [⟨"r0", "b", "Milk", "", 1, 100, "", 0⟩] :=
  ⟨by decide,
   (update_merges_fields "zz" { notes := some "n" }
      [⟨"r0", "b", "Milk", "", 1, 100, "", 0⟩]).1 (by decide)⟩

/- ---------- import helper lemmas ---------- -/

/-- When both required columns are found, the import runs the data-row
loop and reports `success: true` with the accepted rows and the collected
row errors. -/
theorem importProductData_found (hdr r1 : List String)
    (rest : List (List String)) (b n : Nat)
    (hb : findHeaderIndex isBarcodeHeader (loweredHeaders hdr) = some b)
    (hn : findHeaderIndex isItemNameHeader (loweredHeaders hdr) = some n) :
    importProductData (hdr :: r1 :: rest) =
      ⟨true,
       (processRows b n (findHeaderIndex isDescHeader (loweredHeaders hdr))
          (r1 :: rest) 1).1.length,
       (processRows b n (findHeaderIndex isDescHeader (loweredHeaders hdr))
          (r1 :: rest) 1).2,
       (processRows b n (findHeaderIndex isDescHeader (loweredHeaders hdr))
          (r1 :: rest) 1).1⟩ := by
  simp only [loweredHeaders] at hb hn
  simp only [importProductData, hb, hn, loweredHeaders]

/-- The data-row loop, described row by row: the accepted products are
the good rows in order, and the errors are one message per non-empty bad
row, carrying that row's position. -/
theorem processRows_spec (b n : Nat) (d : Option Nat) :
    ∀ (rows : List (List String)) (i : Nat),
      processRows b n d rows i =
        (rows.filterMap (fun row =>
            if row.isEmpty then none
            else if rowBad b n row then none
            else some (rowProduct b n d row)),
         (enumFromIdx i rows).filterMap (fun q =>
            if q.2.isEmpty then none
            else if rowBad b n q.2 then some (rowMsg q.1)
            else none))
  | [], _ => rfl
  | row :: rest, i => by
    have ih := processRows_spec b n d rest (i + 1)
    simp only [processRows, enumFromIdx, List.filterMap_cons, ih]
    by_cases he : row.isEmpty
    · simp [he]
    · by_cases hbad : rowBad b n row
      · simp [he, hbad]
      · simp [he, hbad]

/-- C6 counterexample: the excel.ts import of a table with one good and
one bad data row yields `imported = 1 > 0` and a non-empty error list,
yet reports `success = true` — refuting `success = (errors.length == 0)`
for this import path. -/
theorem import_success_cex :
    (importProductData [["Barcode", "Item Name"], ["1", "A"], ["2", ""]]).imported
        = 1 ∧
    (importProductData [["Barcode", "Item Name"], ["1", "A"], ["2", ""]]).errors
        ≠ [] ∧
    (importProductData [["Barcode", "Item Name"], ["1", "A"], ["2", ""]]).success
        = true := by
  decide

/-- C6 amended: the importExport.ts import reports
`success = (errors.length == 0)`, while the excel.ts import reports
`success = true` on every table that passes the structural checks, even
with a non-empty row-error list; in all paths `imported` equals the count
of accepted rows. -/
theorem import_success_flag (rows : List (List (String × String)))
    (table : List (List String)) (hdr r1 : List String)
    (rest : List (List String)) (b n : Nat)
    (hb : findHeaderIndex isBarcodeHeader (loweredHeaders hdr) = some b)
    (hn : findHeaderIndex isItemNameHeader (loweredHeaders hdr) = some n) :
    ((importProductDataIE rows).success = true ↔
      (importProductDataIE rows).errors = []) ∧
    (importProductDataIE rows).imported =
      (importProductDataIE rows).data.length ∧
    (importProductData table).imported =
      (importProductData table).data.length ∧
    (importProductData (hdr :: r1 :: rest)).success = true := by
  refine ⟨?_, rfl, ?_, ?_⟩
  · simp [importProductDataIE, List.isEmpty_iff]
  · match table with
    | [] => rfl
    | [_] => rfl
    | hdr' :: r1' :: rest' =>
      rcases h1 : findHeaderIndex isBarcodeHeader (loweredHeaders hdr') with _ | b'
      · simp only [loweredHeaders] at h1
        simp [importProductData, h1]
      · rcases h2 : findHeaderIndex isItemNameHeader (loweredHeaders hdr')
          with _ | n'
        · simp only [loweredHeaders] at h1 h2
          simp [importProductData, h1, h2]
        · rw [importProductData_found hdr' r1' rest' b' n' h1 h2]
  · rw [importProductData_found hdr r1 rest b n hb hn]

/-- Witness for `import_success_flag` at a concrete table. -/
theorem import_success_flag_witness :
    (findHeaderIndex isBarcodeHeader (loweredHeaders ["Barcode", "Item Name"])
        = some 0 ∧
     findHeaderIndex isItemNameHeader (loweredHeaders ["Barcode", "Item Name"])
        = some 1) ∧
    (importProductData [["Barcode", "Item Name"], ["1", "A"], ["2", ""]]).success
        = true :=
  ⟨⟨by decide, by decide⟩,
   (import_success_flag [] [] ["Barcode", "Item Name"] ["1", "A"] [["2", ""]]
      0 1 (by decide) (by decide)).2.2.2⟩

/-- C7: on a table whose required columns are found, the row errors are
exactly one message `"Row N: Missing barcode or item name"` per non-empty
data row whose trimmed barcode or item name is empty, where `N` is the
row's 1-indexed position counting the header row; the bad rows are
skipped, the remaining rows are processed in order and counted by
`imported`; in particular 3 data rows whose second has an empty item name
yield `imported = 2` and the single error `"Row 3: ..."`. -/
theorem import_row_errors (hdr r1 : List String)
    (rest : List (List String)) (b n : Nat)
    (hb : findHeaderIndex isBarcodeHeader (loweredHeaders hdr) = some b)
    (hn : findHeaderIndex isItemNameHeader (loweredHeaders hdr) = some n) :
    ((importProductData (hdr :: r1 :: rest)).errors =
      (enumFromIdx 1 (r1 :: rest)).filterMap (fun q =>
        if q.2.isEmpty then none
        else if rowBad b n q.2 then
          some ("Row " ++ toString (q.1 + 1) ++ ": Missing barcode or item name")
        else none)) ∧
    ((importProductData (hdr :: r1 :: rest)).data =
      (r1 :: rest).filterMap (fun row =>
        if row.isEmpty then none
        else if rowBad b n row then none
        else some (rowProduct b n
          (findHeaderIndex isDescHeader (loweredHeaders hdr)) row))) ∧
    ((importProductData (hdr :: r1 :: rest)).imported =
      (importProductData (hdr :: r1 :: rest)).data.length) ∧
    (importProductData [["Barcode", "Item Name"], ["1", "A"], ["2", ""], ["3", "C"]] =
      ⟨true, 2, ["Row 3: Missing barcode or item name"],
       [⟨"1", "A", ""⟩, ⟨"3", "C", ""⟩]⟩) := by
  rw [importProductData_found hdr r1 rest b n hb hn]
  rw [processRows_spec b n (findHeaderIndex isDescHeader (loweredHeaders hdr))
    (r1 :: rest) 1]
  exact ⟨rfl, rfl, rfl, by decide⟩

/-- Witness for `import_row_errors` at the concrete 3-data-row table of
the claim. -/
theorem import_row_errors_witness :
    (findHeaderIndex isBarcodeHeader (loweredHeaders ["Barcode", "Item Name"])
        = some 0 ∧
     findHeaderIndex isItemNameHeader (loweredHeaders ["Barcode", "Item Name"])
        = some 1) ∧
    (importProductData [["Barcode", "Item Name"], ["1", "A"], ["2", ""], ["3", "C"]]).errors =
      (enumFromIdx 1 [["1", "A"], ["2", ""], ["3", "C"]]).filterMap (fun q =>
        if q.2.isEmpty then none
        else if rowBad 0 1 q.2 then
          some ("Row " ++ toString (q.1 + 1) ++ ": Missing barcode or item name")
        else none) :=
  ⟨⟨by decide, by decide⟩,
   (import_row_errors ["Barcode", "Item Name"] ["1", "A"] [["2", ""], ["3", "C"]]
      0 1 (by decide) (by decide)).1⟩

/-- `findHeaderIndex` returns `some j` exactly when position `j` holds the
first element satisfying the predicate. -/
theorem findHeaderIndex_eq_some_iff (p : String → Bool) :
    ∀ (hs : List String) (j : Nat),
      findHeaderIndex p hs = some j ↔
        ((∃ h, hs.get? j = some h ∧ p h = true) ∧
         ∀ k h, k < j → hs.get? k = some h → p h = false)
  | [], j => by simp [findHeaderIndex]
  | a :: t, j => by
    simp only [findHeaderIndex]
    by_cases hpa : p a = true
    · rw [if_pos hpa]
      constructor
      · intro h
        injection h with h
        subst h
        exact ⟨⟨a, rfl, hpa⟩, fun k h hk => by omega⟩
      · rintro ⟨-, hmin⟩
        cases j with
        | zero => rfl
        | succ j' =>
          have := hmin 0 a (Nat.succ_pos _) rfl
          rw [this] at hpa
          cases hpa
    · rw [if_neg hpa]
      have hpa' : p a = false := by
        revert hpa; cases p a <;> simp
      cases j with
      | zero =>
        rw [Option.map_eq_some']
        constructor
        · rintro ⟨x, -, hx0⟩
          omega
        · rintro ⟨⟨h, hh, hph⟩, -⟩
          injection hh with hh
          rw [← hh, hpa'] at hph
          cases hph
      | succ j' =>
        rw [Option.map_eq_some']
        constructor
        · rintro ⟨x, hx, hxe⟩
          have hj : x = j' := by omega
          rw [hj] at hx
          obtain ⟨⟨h, hh, hph⟩, hmin⟩ :=
            (findHeaderIndex_eq_some_iff p t j').1 hx
          refine ⟨⟨h, by simpa using hh, hph⟩, ?_⟩
          intro k h' hk hk'
          cases k with
          | zero =>
            injection hk' with hk'
            rw [← hk']
            exact hpa'
          | succ k' =>
            exact hmin k' h' (by omega) (by simpa using hk')
        · rintro ⟨⟨h, hh, hph⟩, hmin⟩
          refine ⟨j', (findHeaderIndex_eq_some_iff p t j').2
            ⟨⟨h, by simpa using hh, hph⟩, ?_⟩, rfl⟩
          intro k h' hk hk'
          exact hmin (k + 1) h' (by omega) (by simpa using hk')

/-- C8: each target field is bound to the first header matching its
synonym set; the import fails (before touching any data row) exactly when
the barcode synonyms or the item-name synonyms match no header; a missing
description column makes every imported row's description empty; and the
header `["UPC", "Product", "Notes"]` maps barcode from UPC, itemName from
Product, and description to `""` without failing. -/
theorem import_header_binding (hs : List String) (j : Nat)
    (hdr r1 : List String) (rest : List (List String)) (b n : Nat)
    (hb : findHeaderIndex isBarcodeHeader (loweredHeaders hdr) = some b)
    (hn : findHeaderIndex isItemNameHeader (loweredHeaders hdr) = some n)
    (hd : findHeaderIndex isDescHeader (loweredHeaders hdr) = none) :
    (findHeaderIndex isBarcodeHeader hs = some j ↔
      ((∃ h, hs.get? j = some h ∧ isBarcodeHeader h = true) ∧
       ∀ k h, k < j → hs.get? k = some h → isBarcodeHeader h = false)) ∧
    (findHeaderIndex isItemNameHeader hs = some j ↔
      ((∃ h, hs.get? j = some h ∧ isItemNameHeader h = true) ∧
       ∀ k h, k < j → hs.get? k = some h → isItemNameHeader h = false)) ∧
    (findHeaderIndex isDescHeader hs = some j ↔
      ((∃ h, hs.get? j = some h ∧ isDescHeader h = true) ∧
       ∀ k h, k < j → hs.get? k = some h → isDescHeader h = false)) ∧
    (∀ (hdr2 r2 : List String) (rest2 : List (List String)),
      ((importProductData (hdr2 :: r2 :: rest2)).success = false ↔
        (findHeaderIndex isBarcodeHeader (loweredHeaders hdr2) = none ∨
         findHeaderIndex isItemNameHeader (loweredHeaders hdr2) = none)) ∧
      ((findHeaderIndex isBarcodeHeader (loweredHeaders hdr2) = none ∨
        findHeaderIndex isItemNameHeader (loweredHeaders hdr2) = none) →
        (importProductData (hdr2 :: r2 :: rest2)).data = [] ∧
        (importProductData (hdr2 :: r2 :: rest2)).imported = 0)) ∧
    (∀ p ∈ (importProductData (hdr :: r1 :: rest)).data, p.description = "") ∧
    (importProductData [["UPC", "Product", "Notes"], ["123", "Widget", "x"]] =
      ⟨true, 1, [], [⟨"123", "Widget", ""⟩]⟩) := by
  refine ⟨findHeaderIndex_eq_some_iff _ hs j,
          findHeaderIndex_eq_some_iff _ hs j,
          findHeaderIndex_eq_some_iff _ hs j, ?_, ?_, by decide⟩
  · intro hdr2 r2 rest2
    rcases h1 : findHeaderIndex isBarcodeHeader (loweredHeaders hdr2) with _ | b'
    · have h1' := h1
      simp only [loweredHeaders] at h1'
      simp [importProductData, h1', h1, loweredHeaders]
    · rcases h2 : findHeaderIndex isItemNameHeader (loweredHeaders hdr2)
        with _ | n'
      · have h1' := h1
        have h2' := h2
        simp only [loweredHeaders] at h1' h2'
        simp [importProductData, h1', h2', h1, h2, loweredHeaders]
      · rw [importProductData_found hdr2 r2 rest2 b' n' h1 h2]
        simp [h1, h2]
  · rw [importProductData_found hdr r1 rest b n hb hn,
      processRows_spec b n (findHeaderIndex isDescHeader (loweredHeaders hdr))
        (r1 :: rest) 1, hd]
    intro p hp
    obtain ⟨row, hrow, heq⟩ := List.mem_filterMap.1 hp
    by_cases he : row.isEmpty
    · rw [if_pos he] at heq
      cases heq
    · rw [if_neg he] at heq
      by_cases hbad : rowBad b n row = true
      · rw [if_pos hbad] at heq
        cases heq
      · rw [if_neg hbad] at heq
        injection heq with heq
        rw [← heq]
        rfl

/-- Witness for `import_header_binding` at the claim's concrete header. -/
theorem import_header_binding_witness :
    (findHeaderIndex isBarcodeHeader (loweredHeaders ["UPC", "Product", "Notes"])
        = some 0 ∧
     findHeaderIndex isItemNameHeader (loweredHeaders ["UPC", "Product", "Notes"])
        = some 1 ∧
     findHeaderIndex isDescHeader (loweredHeaders ["UPC", "Product", "Notes"])
        = none) ∧
    (∀ p ∈ (importProductData
        [["UPC", "Product", "Notes"], ["123", "Widget", "x"]]).data,
      p.description = "") :=
  ⟨⟨by decide, by decide, by decide⟩,
   (import_header_binding ["UPC", "Product", "Notes"] 0
      ["UPC", "Product", "Notes"] ["123", "Widget", "x"] [] 0 1
      (by decide) (by decide) (by decide)).2.2.2.2.1⟩

/-- The data-row loop over exported rows: with trim-invariant, non-empty
barcode and item name, every exported record is accepted and its catalog
triple is recovered in order, with no row errors. -/
theorem processRows_export (fmt : Int → String) (now : Int) :
    ∀ (records : List ExpRecord) (i : Nat),
      (∀ r ∈ records, jsTrim r.barcode = r.barcode ∧ r.barcode ≠ "" ∧
        jsTrim r.itemName = r.itemName ∧ r.itemName ≠ "" ∧
        jsTrim r.description = r.description) →
      processRows 0 1 (some 2) (records.map (exportRow fmt now)) i =
        (records.map (fun r =>
          (⟨r.barcode, r.itemName, r.description⟩ : Product)), [])
  | [], _, _ => rfl
  | r :: rs, i, h => by
    obtain ⟨hb, hbne, hn, hnne, hd⟩ := h r (List.mem_cons_self r rs)
    have ih := processRows_export fmt now rs (i + 1)
      (fun x hx => h x (List.mem_cons_of_mem r hx))
    have hcell0 : cellAt (exportRow fmt now r) (some 0) = r.barcode := rfl
    have hcell1 : cellAt (exportRow fmt now r) (some 1) = r.itemName := rfl
    have hcell2 : cellAt (exportRow fmt now r) (some 2) = r.description := rfl
    have hempty : (exportRow fmt now r).isEmpty = false := rfl
    have hbad : rowBad 0 1 (exportRow fmt now r) = false := by
      rw [rowBad, hcell0, hcell1, hb, hn]
      simp [hbne, hnne]
    simp only [List.map_cons, processRows, hempty, hbad, ih,
      Bool.false_eq_true, if_false]
    rw [rowProduct, hcell0, hcell1, hcell2, hb, hn, hd]

/-- C9 counterexample: a single record whose barcode is empty (the data
model allows empty barcodes) is dropped by the re-import — its row fails
the missing-barcode check — so the round trip recovers none of the
original triples. -/
theorem export_import_roundtrip_cex :
    (importProductData (exportTable (fun _ => "1/1/2024") 0
        [⟨"i1", "", "Milk", "fresh", 1, 0, "", 0⟩])).data = [] ∧
    [(⟨"i1", "", "Milk", "fresh", 1, 0, "", 0⟩ : ExpRecord)].map
        (fun r => (⟨r.barcode, r.itemName, r.description⟩ : Product)) =
      [⟨"", "Milk", "fresh"⟩] := by
  decide

/-- C9 amended: for every list of records whose barcode and item name are
non-empty and trim-invariant and whose description is trim-invariant,
exporting and re-importing recovers barcode, itemName and description of
all records, in order. -/
theorem export_import_roundtrip (fmt : Int → String) (now : Int)
    (records : List ExpRecord)
    (h : ∀ r ∈ records, jsTrim r.barcode = r.barcode ∧ r.barcode ≠ "" ∧
      jsTrim r.itemName = r.itemName ∧ r.itemName ≠ "" ∧
      jsTrim r.description = r.description) :
    (importProductData (exportTable fmt now records)).data =
      records.map (fun r =>
        (⟨r.barcode, r.itemName, r.description⟩ : Product)) ∧
    (importProductData (exportTable fmt now records)).imported =
      records.length := by
  cases records with
  | nil => exact ⟨rfl, rfl⟩
  | cons r rs =>
    have hbIdx : findHeaderIndex isBarcodeHeader (loweredHeaders exportHeader)
        = some 0 := by decide
    have hnIdx : findHeaderIndex isItemNameHeader (loweredHeaders exportHeader)
        = some 1 := by decide
    have hdIdx : findHeaderIndex isDescHeader (loweredHeaders exportHeader)
        = some 2 := by decide
    have htable : exportTable fmt now (r :: rs) =
        exportHeader :: exportRow fmt now r :: rs.map (exportRow fmt now) := by
      simp [exportTable]
    rw [htable, importProductData_found exportHeader (exportRow fmt now r)
      (rs.map (exportRow fmt now)) 0 1 hbIdx hnIdx, hdIdx]
    have hrows : exportRow fmt now r :: rs.map (exportRow fmt now) =
        (r :: rs).map (exportRow fmt now) := by
      simp
    rw [hrows, processRows_export fmt now (r :: rs) 1 h]
    exact ⟨rfl, by simp⟩

/-- Witness for `export_import_roundtrip` on a concrete two-record list. -/
theorem export_import_roundtrip_witness :
    (∀ r ∈ [(⟨"i1", "123", "Milk", "fresh", 1, 0, "", 0⟩ : ExpRecord),
            ⟨"i2", "456", "Jam", "", 2, 86400000, "n", 0⟩],
      jsTrim r.barcode = r.barcode ∧ r.barcode ≠ "" ∧
      jsTrim r.itemName = r.itemName ∧ r.itemName ≠ "" ∧
      jsTrim r.description = r.description) ∧
    (importProductData (exportTable (fun _ => "1/1/2024") 0
        [⟨"i1", "123", "Milk", "fresh", 1, 0, "", 0⟩,
         ⟨"i2", "456", "Jam", "", 2, 86400000, "n", 0⟩])).data =
      [(⟨"i1", "123", "Milk", "fresh", 1, 0, "", 0⟩ : ExpRecord),
       ⟨"i2", "456", "Jam", "", 2, 86400000, "n", 0⟩].map
        (fun r => (⟨r.barcode, r.itemName, r.description⟩ : Product)) :=
  ⟨by decide,
   (export_import_roundtrip (fun _ => "1/1/2024") 0
      [⟨"i1", "123", "Milk", "fresh", 1, 0, "", 0⟩,
       ⟨"i2", "456", "Jam", "", 2, 86400000, "n", 0⟩] (by decide)).1⟩

/-- Trimming only removes characters: anything left was in the input. -/
theorem mem_of_mem_jsTrimList {c : Char} {l : List Char}
    (h : c ∈ jsTrimList l) : c ∈ l := by
  unfold jsTrimList at h
  have h1 := List.mem_reverse.1 h
  have h2 := (List.dropWhile_sublist _).subset h1
  have h3 := List.mem_reverse.1 h2
  exact (List.dropWhile_sublist _).subset h3

/-- `validateBarcode` ends in one of three ways: it accepts (with no
error), it rejects empty/whitespace-only input, or it rejects with the
length message — and the latter only after the `CODE_128` pattern
failed on a non-empty trimmed input. -/
theorem validateBarcode_cases (s : String) :
    ((validateBarcode s).valid = true ∧ (validateBarcode s).error = none) ∨
    (validateBarcode s = ⟨false, none, some "Barcode cannot be empty"⟩ ∧
      (s = "" ∨ jsTrim s = "")) ∨
    (validateBarcode s =
        ⟨false, none,
         some "Invalid barcode format. Must be 4-50 characters and contain valid characters."⟩ ∧
      code128 (jsTrim s).data = false ∧ ¬(s = "" ∨ jsTrim s = "")) := by
  simp only [validateBarcode]
  split_ifs with h1 h2 h3 h4 h5 h6 h7 h8
  · right; left
    refine ⟨rfl, ?_⟩
    simpa using h1
  · left; exact ⟨rfl, rfl⟩
  · left; exact ⟨rfl, rfl⟩
  · left; exact ⟨rfl, rfl⟩
  · left; exact ⟨rfl, rfl⟩
  · left; exact ⟨rfl, rfl⟩
  · left; exact ⟨rfl, rfl⟩
  · left; exact ⟨rfl, rfl⟩
  · right; right
    refine ⟨rfl, ?_, ?_⟩
    · revert h6
      cases code128 (jsTrim s).data <;> simp
    · simpa using h1

/-- C10: `validateBarcode` accepts every input whose trimmed form is
non-empty and all-ASCII (the `CODE_128` pattern matches any such string);
its 4-50-character rejection can only hit inputs containing a non-ASCII
character; and an empty-after-trim input is the only all-ASCII input it
rejects, with the error `"Barcode cannot be empty"`. -/
theorem validateBarcode_ascii (s : String) :
    (jsTrim s ≠ "" → allAscii (jsTrim s) = true →
      (validateBarcode s).valid = true) ∧
    ((validateBarcode s).error =
        some "Invalid barcode format. Must be 4-50 characters and contain valid characters." →
      ∃ c ∈ s.data, 0x7F < c.toNat) ∧
    (allAscii s = true → (validateBarcode s).valid = false →
      jsTrim s = "" ∧ (validateBarcode s).error = some "Barcode cannot be empty") := by
  have hdata : ∀ t : String, t.data = [] → t = "" := by
    intro t h
    cases t
    simp_all
  have htrim : s = "" → jsTrim s = "" := by
    intro h
    rw [h]
    rfl
  have hcode_of : (jsTrim s).data ≠ [] → allAscii (jsTrim s) = true →
      code128 (jsTrim s).data = true := by
    intro hne ha
    unfold allAscii at ha
    unfold code128
    rw [ha, Bool.and_true, Bool.not_eq_true']
    cases hl : (jsTrim s).data with
    | nil => exact absurd hl hne
    | cons c t => rfl
  refine ⟨?_, ?_, ?_⟩
  · intro ht ha
    rcases validateBarcode_cases s with h | h | h
    · exact h.1
    · rcases h.2 with h' | h'
      · exact absurd (htrim h') ht
      · exact absurd h' ht
    · have hne : (jsTrim s).data ≠ [] := fun hl => ht (hdata _ hl)
      rw [hcode_of hne ha] at h
      cases h.2.1
  · intro herr
    rcases validateBarcode_cases s with h | h | h
    · rw [h.2] at herr
      cases herr
    · rw [h.1] at herr
      injection herr with herr
      exact absurd herr (by decide)
    · obtain ⟨heq, hc, hnor⟩ := h
      have ht : jsTrim s ≠ "" := fun h' => hnor (Or.inr h')
      have hne : (jsTrim s).data ≠ [] := fun hl => ht (hdata _ hl)
      unfold code128 at hc
      rcases Bool.and_eq_false_iff.1 hc with hc' | hc'
      · rw [Bool.not_eq_false', List.isEmpty_iff] at hc'
        exact absurd hc' hne
      · obtain ⟨c, hcmem, hcp⟩ := List.all_eq_false.1 hc'
        refine ⟨c, mem_of_mem_jsTrimList hcmem, ?_⟩
        simpa using hcp
  · intro ha hv
    rcases validateBarcode_cases s with h | h | h
    · rw [h.1] at hv
      cases hv
    · rcases h.2 with h' | h'
      · exact ⟨htrim h', by rw [h.1]⟩
      · exact ⟨h', by rw [h.1]⟩
    · obtain ⟨heq, hc, hnor⟩ := h
      have ht : jsTrim s ≠ "" := fun h' => hnor (Or.inr h')
      have hne : (jsTrim s).data ≠ [] := fun hl => ht (hdata _ hl)
      have ha' : allAscii (jsTrim s) = true := by
        unfold allAscii at ha ⊢
        rw [List.all_eq_true] at ha ⊢
        intro c hcmem
        exact ha c (mem_of_mem_jsTrimList hcmem)
      rw [hcode_of hne ha'] at hc
      cases hc

/-- Witness for `validateBarcode_ascii`: an arbitrary two-letter ASCII
input is accepted. -/
theorem validateBarcode_ascii_witness :
    (jsTrim "ab" ≠ "" ∧ allAscii (jsTrim "ab") = true) ∧
    (validateBarcode "ab").valid = true :=
  ⟨⟨by decide, by decide⟩,
   (validateBarcode_ascii "ab").1 (by decide) (by decide)⟩

end ExpTracker
